import Mathlib

/-!
A shallow embedding of the page-rendering and extraction pipeline of
`src/renderer.ts` (the `Renderer` class: `serialize`, `screenshot`, the
in-page helpers `stripPage` / `injectBaseHref`, and the preview extractors
`getTitle`, `getDescription`, `getDomainName`, `getImg`).

JavaScript strings are modelled as Lean `String`; the handful of JS
primitives the source leans on (`parseInt`, `String.prototype.trim`,
`String.prototype.replace` with a string pattern, `indexOf`, `startsWith`,
and the WHATWG `URL` / legacy `url.parse` accessors) are given explicit
executable models below. The DOM is modelled structurally: a tree of
elements with tag names and attribute lists, plus a record of the facts the
in-page evaluation functions query (meta-tag contents, image geometry,
paragraph visibility). A rejected in-page evaluation promise (a thrown
`TypeError`) is modelled with `Except`.
-/

namespace Rendertron

/-- Whitespace as trimmed by `String.prototype.trim` (ASCII part). -/
def isJsSpace (c : Char) : Bool :=
  c = ' ' || c = '\t' || c = '\n' || c = '\r' || c = '\x0b' || c = '\x0c'

/-- Drop leading and trailing whitespace from a character list. -/
def trimChars (l : List Char) : List Char :=
  ((l.dropWhile isJsSpace).reverse.dropWhile isJsSpace).reverse

/-- Model of `String.prototype.trim`. -/
def jsTrim (s : String) : String :=
  ⟨trimChars s.data⟩

/-- Does `pat` occur as a contiguous sublist of `l`?  Model of
`String.prototype.indexOf(pat) !== -1`. -/
def containsSubL (l pat : List Char) : Bool :=
  match l with
  | [] => pat.isEmpty
  | _ :: rest => pat.isPrefixOf l || containsSubL rest pat

/-- Model of `s.indexOf(pat) !== -1` on strings. -/
def containsSub (s pat : String) : Bool :=
  containsSubL s.data pat.data

/-- Model of `s.startsWith('/')` (a one-character prefix test). -/
def startsWithSlash (s : String) : Bool :=
  match s.data with
  | [] => false
  | c :: _ => c = '/'

/-- Replace the first occurrence of `pat` in `l` by `repl`; the list is
returned unchanged when `pat` does not occur.  Model of JS
`String.prototype.replace` with a plain-string pattern. -/
def replaceOnceL : List Char → List Char → List Char → List Char
  | [], pat, repl => if pat.isEmpty then repl else []
  | c :: rest, pat, repl =>
    if pat.isPrefixOf (c :: rest) then repl ++ (c :: rest).drop pat.length
    else c :: replaceOnceL rest pat repl

/-- Model of `s.replace(pat, repl)` (JS: first occurrence only). -/
def jsReplaceOnce (s pat repl : String) : String :=
  ⟨replaceOnceL s.data pat.data repl.data⟩

/-- Numeric value of a maximal leading run of decimal digits; `none` when
there is no leading digit (JS `NaN`). -/
def decDigitsVal (l : List Char) : Option Int :=
  let ds := l.takeWhile (fun c => c.isDigit)
  if ds.isEmpty then none
  else some (ds.foldl (fun a c => a * 10 + ((c.toNat : Int) - 48)) 0)

/-- Numeric value of a maximal leading run of hexadecimal digits. -/
def hexDigitsVal (l : List Char) : Option Int :=
  let ds := l.takeWhile (fun c => c.isDigit || ('a' ≤ c && c ≤ 'f') || ('A' ≤ c && c ≤ 'F'))
  if ds.isEmpty then none
  else some (ds.foldl (fun a c =>
    a * 16 + (if c.isDigit then (c.toNat : Int) - 48
              else if 'a' ≤ c && c ≤ 'f' then (c.toNat : Int) - 87
              else (c.toNat : Int) - 55)) 0)

/-- Magnitude part of `parseInt`: an optional `0x`/`0X` hexadecimal prefix,
otherwise a decimal digit run; trailing garbage is ignored. -/
def parseIntMag (l : List Char) : Option Int :=
  match l with
  | '0' :: 'x' :: rest => hexDigitsVal rest
  | '0' :: 'X' :: rest => hexDigitsVal rest
  | _ => decDigitsVal l

/-- Model of JS `parseInt(s)` (no explicit radix): leading whitespace is
skipped, an optional sign is read, then a hexadecimal (with `0x` prefix) or
decimal digit run; `none` models `NaN`. -/
def parseIntJS (s : String) : Option Int :=
  match s.data.dropWhile isJsSpace with
  | '-' :: rest => (parseIntMag rest).map (fun n => -n)
  | '+' :: rest => parseIntMag rest
  | rest => parseIntMag rest

/-- First value bound to key `k` in an association list (model of a JS
object / `Map` lookup, and of `getAttribute`). -/
def assocGet (l : List (String × String)) (k : String) : Option String :=
  match l with
  | [] => none
  | (k', v) :: rest => if k' = k then some v else assocGet rest k

/-- Bind key `k` to `v`, replacing an existing binding in place (model of
`setAttribute` / `Object.assign` key overwrite). -/
def assocSet (l : List (String × String)) (k v : String) : List (String × String) :=
  match l with
  | [] => [(k, v)]
  | (k', v') :: rest => if k' = k then (k, v) :: rest else (k', v') :: assocSet rest k v

/-- Split an absolute URL's character list at its `://` separator, yielding
the protocol (scheme including the trailing colon) and the remainder after
the two slashes; `none` when no `://` occurs (the WHATWG `URL` constructor
throws there, legacy `url.parse` yields null parts). -/
def schemeSplitAux (acc l : List Char) : Option (List Char × List Char) :=
  match l with
  | ':' :: '/' :: '/' :: rest => some (acc.reverse ++ [':'], rest)
  | c :: rest => schemeSplitAux (c :: acc) rest
  | [] => none

/-- The host[:port] part of an absolute URL: everything after `://` up to
the first `/`, `?` or `#`. -/
def hostPortOf (rest : List Char) : List Char :=
  rest.takeWhile (fun c => !(c = '/' || c = '?' || c = '#'))

/-- Model of `new URL(u).hostname` (port stripped); `none` models the
constructor throwing on a URL with no `://`.  Credentials and
case-normalization are not modelled. -/
def urlHostname (u : String) : Option String :=
  (schemeSplitAux [] u.data).map fun p => ⟨(hostPortOf p.2).takeWhile (fun c => c ≠ ':')⟩

/-- Model of `new URL(u).origin`: scheme, separator and host[:port]. -/
def urlOrigin (u : String) : Option String :=
  (schemeSplitAux [] u.data).map fun p => ⟨p.1 ++ '/' :: '/' :: hostPortOf p.2⟩

/-- Model of the template `parsedUrl.protocol + '//' + parsedUrl.host`
built with legacy `url.parse` in `serialize`: for a URL with no `://` both
parts are null and the template renders them as the string `null`. -/
def originOf (u : String) : String :=
  match schemeSplitAux [] u.data with
  | some (proto, rest) => ⟨proto ++ '/' :: '/' :: hostPortOf rest⟩
  | none => "null//null"

/-! ## The document tree and the content sanitizer -/

/-- A DOM node: an element with a tag name, attributes and children, or a
text node. -/
inductive Node : Type where
  | text (s : String)
  | elem (tag : String) (attrs : List (String × String)) (children : List Node)

/-- A document: the children of `<head>` and of `<body>`. -/
structure Doc : Type where
  head : List Node
  body : List Node

/-- Does the element match the `stripPage` selector
`script:not([type]), script[type*="javascript"], link[rel=import]`? -/
def isStripped (tag : String) (attrs : List (String × String)) : Bool :=
  (tag = "script" &&
    (match assocGet attrs "type" with
     | none => true
     | some t => containsSub t "javascript"))
  || (tag = "link" && assocGet attrs "rel" = some "import")

/-- Remove every element matching the `stripPage` selector from a node
list, recursively (model of `querySelectorAll` + `remove()` over the whole
subtree). -/
def stripNodes : List Node → List Node
  | [] => []
  | .text s :: rest => .text s :: stripNodes rest
  | .elem t a c :: rest =>
    if isStripped t a then stripNodes rest
    else .elem t a (stripNodes c) :: stripNodes rest

/-- `stripPage` from `serialize`: strip script/import elements from the
whole document. -/
def stripPage (d : Doc) : Doc :=
  ⟨stripNodes d.head, stripNodes d.body⟩

/-- Does the subtree contain a `base` element? -/
def hasBaseL : List Node → Bool
  | [] => false
  | .text _ :: rest => hasBaseL rest
  | .elem t _ c :: rest => t = "base" || hasBaseL c || hasBaseL rest

/-- Attributes of the first `base` element in document order (model of
`document.head.querySelectorAll('base')[0]`). -/
def firstBaseAttrsL : List Node → Option (List (String × String))
  | [] => none
  | .text _ :: rest => firstBaseAttrsL rest
  | .elem t a c :: rest =>
    if t = "base" then some a
    else match firstBaseAttrsL c with
      | some r => some r
      | none => firstBaseAttrsL rest

/-- Rewrite the `href` attribute of the first `base` element in document
order to `v`, leaving everything else in place. -/
def patchFirstBaseL (v : String) : List Node → List Node
  | [] => []
  | .text s :: rest => .text s :: patchFirstBaseL v rest
  | .elem t a c :: rest =>
    if t = "base" then .elem t (assocSet a "href" v) c :: rest
    else if hasBaseL c then .elem t a (patchFirstBaseL v c) :: rest
    else .elem t a c :: patchFirstBaseL v rest

/-- `injectBaseHref` from `serialize`: if a `base` element exists and its
`href` is path-relative (starts with `/`), prefix it with the origin;
otherwise, if no `base` exists, insert `<base href=origin>` as the first
child of `<head>`; an existing non-relative `base` is left untouched. -/
def injectBaseHref (origin : String) (head : List Node) : List Node :=
  match firstBaseAttrsL head with
  | some a =>
    let existingBase := (assocGet a "href").getD ""
    if startsWithSlash existingBase then patchFirstBaseL (origin ++ existingBase) head
    else head
  | none => .elem "base" [("href", origin)] [] :: head

/-- One sanitization pass of the Full-mode pipeline: strip script/import
elements everywhere, then resolve the base href in `<head>`. -/
def sanitizeDoc (origin : String) (d : Doc) : Doc :=
  let s := stripPage d
  ⟨injectBaseHref origin s.head, s.body⟩

/-! ## Facts the in-page evaluations query -/

/-- A thrown in-page evaluation error (a `TypeError` from dereferencing a
null `querySelector` result or an undefined array element, or a `URL`
constructor failure), rejecting the promise `page.evaluate` returns. -/
inductive EvalError : Type where
  | typeError
  deriving DecidableEq, Repr

/-- An `<img>` element as `getImg` sees it. -/
structure Img : Type where
  naturalWidth : Nat
  naturalHeight : Nat
  src : String
  deriving DecidableEq, Repr

/-- A `<p>` element as `getDescription` sees it: whether it has a layout
box (`offsetParent !== null`), its child-element count and its text. -/
structure Paragraph : Type where
  hasOffsetParent : Bool
  childElementCount : Nat
  textContent : String
  deriving DecidableEq, Repr

/-- The queryable state of a loaded page.  `Option String` fields are the
reflected `content` (or `href`) property of the matching element when the
selector finds one (`none` = selector finds nothing; the reflected
property is `""` when the attribute is missing).  The two `render:` meta
tags are modelled as `Option (Option String)`: tag presence, then the raw
`getAttribute('content')` result (`none` = attribute missing, JS null). -/
structure PageDom : Type where
  statusMeta : Option (Option String) := none
  headerMeta : Option (Option String) := none
  ogTitle : Option String := none
  twitterTitle : Option String := none
  docTitle : String := ""
  h1Inner : Option String := none
  ogDescription : Option String := none
  twitterDescription : Option String := none
  metaDescription : Option String := none
  paragraphs : List Paragraph := []
  canonicalHref : Option String := none
  ogUrl : Option String := none
  ogImage : Option String := none
  imageSrcLink : Option String := none
  twitterImage : Option String := none
  imgs : List Img := []
  doc : Doc := ⟨[], []⟩

/-- The `element != null && element.content.length > 0` guard pattern: the
waterfall treats a missing element and an empty value alike. -/
def nonEmptyHit (o : Option String) : Option String :=
  match o with
  | some s => if 0 < s.length then some s else none
  | none => none

/-! ## Preview extraction (`getTitle`, `getDescription`, `getDomainName`,
`getImg`) -/

/-- `Renderer.getTitle`: og:title meta, then twitter:title meta, then
`document.title`, then the first `<h1>`'s `innerHTML` — queried twice in
sequence by the source — then null.  When no `<h1>` exists the source
dereferences `querySelector('h1').innerHTML` on null and the evaluation
throws. -/
def getTitle (d : PageDom) : Except EvalError (Option String) :=
  match nonEmptyHit d.ogTitle with
  | some t => .ok (some t)
  | none =>
    match nonEmptyHit d.twitterTitle with
    | some t => .ok (some t)
    | none =>
      if 0 < d.docTitle.length then .ok (some d.docTitle)
      else
        match d.h1Inner with
        | none => .error .typeError
        | some h1 =>
          if 0 < h1.length then .ok (some h1)
          else
            -- The source's second fallback queries the first <h1> again.
            if 0 < h1.length then .ok (some h1)
            else .ok none

/-- `Renderer.getDescription`: og:description meta, then
twitter:description meta, then the standard description meta, then the
text of the first `<p>` that has a layout box and at least one child
element, else null. -/
def getDescription (d : PageDom) : Option String :=
  match nonEmptyHit d.ogDescription with
  | some s => some s
  | none =>
    match nonEmptyHit d.twitterDescription with
    | some s => some s
    | none =>
      match nonEmptyHit d.metaDescription with
      | some s => some s
      | none =>
        (d.paragraphs.find? (fun p => p.hasOffsetParent && p.childElementCount ≠ 0)).map
          (fun p => p.textContent)

/-- The in-page half of `Renderer.getDomainName`: the canonical link's
href, else the og:url meta, else null. -/
def domainSourceUrl (d : PageDom) : Option String :=
  match nonEmptyHit d.canonicalHref with
  | some u => some u
  | none => nonEmptyHit d.ogUrl

/-- `Renderer.getDomainName`: hostname of the canonical/og:url/requested
URL with `.replace('www.', '')` applied.  The `URL` constructor throws on
a URL with no `://`. -/
def getDomainName (d : PageDom) (uri : String) : Except EvalError String :=
  match domainSourceUrl d with
  | some u =>
    match urlHostname u with
    | some h => .ok (jsReplaceOnce h "www." "")
    | none => .error .typeError
  | none =>
    match urlHostname uri with
    | some h => .ok (jsReplaceOnce h "www." "")
    | none => .error .typeError

/-- The `getImg` filter over `<img>` elements: drop an image whose natural
aspect ratio exceeds 3:1 in either orientation or whose natural height or
width is at most 50 pixels.  The source compares `w / h > 3` with
floating-point division; for natural sizes this coincides with the exact
comparison `w > 3 * h` (with the JS convention that `w / 0` is Infinity
for `w > 0` and `0 / 0` is NaN, both reproduced by the Nat inequality). -/
def imgKeep (i : Img) : Bool :=
  let ratioBad :=
    if i.naturalWidth > i.naturalHeight then
      decide (i.naturalWidth > 3 * i.naturalHeight)
    else
      decide (i.naturalHeight > 3 * i.naturalWidth)
  !ratioBad && decide (50 < i.naturalHeight) && decide (50 < i.naturalWidth)

/-- The `forEach` rewrite in `getImg`: a src containing `//` is kept, any
other src is replaced by `origin + '/' + src`; computing the origin throws
when the requested URL has no `://`. -/
def rewriteSrc (uri src : String) : Except EvalError String :=
  if containsSub src "//" then .ok src
  else
    match urlOrigin uri with
    | some o => .ok (o ++ "/" ++ src)
    | none => .error .typeError

/-- Rewrite the src of every surviving image in order, propagating the
first thrown error. -/
def rewriteAll (uri : String) : List Img → Except EvalError (List String)
  | [] => .ok []
  | i :: rest => do
    let s ← rewriteSrc uri i.src
    let ss ← rewriteAll uri rest
    .ok (s :: ss)

/-- `Renderer.getImg`: og:image meta, then `link[rel=image_src]` href,
then twitter:image meta; otherwise, when the page has `<img>` elements,
filter them with `imgKeep`, rewrite every survivor's src, and return the
first survivor's src — the source reads `imgs[0].src` without checking
that any image survived, so an all-filtered list throws; a page with no
`<img>` at all returns null. -/
def getImg (d : PageDom) (uri : String) : Except EvalError (Option String) :=
  match nonEmptyHit d.ogImage with
  | some s => .ok (some s)
  | none =>
    match nonEmptyHit d.imageSrcLink with
    | some s => .ok (some s)
    | none =>
      match nonEmptyHit d.twitterImage with
      | some s => .ok (some s)
      | none =>
        if d.imgs.isEmpty then .ok none
        else
          match rewriteAll uri (d.imgs.filter imgKeep) with
          | .error e => .error e
          | .ok [] => .error .typeError
          | .ok (s :: _) => .ok (some s)

/-! ## The status/header override protocol -/

/-- The `$eval` on `meta[name="render:status_code"]` with its `.catch`:
`none` when the tag is absent (the promise rejects and the catch yields
undefined) or when `parseInt(getAttribute('content') || '')` is NaN. -/
def newStatusCodeOf (statusMeta : Option (Option String)) : Option Int :=
  match statusMeta with
  | none => none
  | some attr => parseIntJS (attr.getD "")

/-- Lines 128-144 of `serialize`: start from the network status, normalize
304 to 200, and replace a 200 by the meta-tag status when that parsed to a
truthy number (`if (statusCode === 200 && newStatusCode)` — NaN, undefined
and 0 are all falsy). -/
def resolveStatus (netStatus : Int) (statusMeta : Option (Option String)) : Int :=
  let s := if netStatus = 304 then 200 else netStatus
  match newStatusCodeOf statusMeta with
  | some n => if s = 200 && n ≠ 0 then n else s
  | none => s

/-- Split a character list at its first colon (the `indexOf(':')` /
`substr(0, i)` / `substring(i + 1)` triple): the characters before the
first `:` and the characters after it; `none` when no colon occurs
(`indexOf` returned -1). -/
def firstColonSplit (l : List Char) : Option (List Char × List Char) :=
  match l with
  | [] => none
  | c :: rest =>
    if c = ':' then some ([], rest)
    else (firstColonSplit rest).map (fun p => (c :: p.1, p.2))

/-- The `$eval` on `meta[name="render:header"]` with its `.catch`, plus
the `new Map(JSON.parse(...))` re-packing in `serialize`: split the
content at its first colon, trim both halves; a missing tag, missing or
empty content, or colon-free content contributes no header. -/
def parseHeaderMeta (headerMeta : Option (Option String)) : List (String × String) :=
  match headerMeta with
  | none => []
  | some attr =>
    match attr with
    | none => []
    | some h =>
      if h = "" then []
      else
        match firstColonSplit h.data with
        | none => []
        | some (k, v) => [(jsTrim ⟨k⟩, jsTrim ⟨v⟩)]

/-! ## The navigation lifecycle and the two pipelines -/

/-- A captured network response: its status and headers. -/
structure Resp : Type where
  status : Int
  headers : List (String × String)
  deriving DecidableEq, Repr

/-- Outcome of `page.goto`: it completed (returning a response object or
null), or it threw (timeout / network error), in which case the first
response recorded by a `page.addListener('response', ...)` listener — when
one was registered — is all that remains. -/
inductive NavResult : Type where
  | completed (r : Option Resp)
  | failed (captured : Option Resp)
  deriving DecidableEq, Repr

/-- The `response` variable of `serialize` after the try/catch: `goto`'s
result when it completed (overwriting anything the listener captured),
else the listener's first captured response. -/
def serializeResponse : NavResult → Option Resp
  | .completed r => r
  | .failed captured => captured

/-- The `response` variable of `screenshot` after the try/catch: no
response listener is registered there, so a failed navigation leaves it
null whatever arrived on the wire. -/
def screenshotResponse : NavResult → Option Resp
  | .completed r => r
  | .failed _ => none

/-- Pipeline stages whose execution the claims track. -/
inductive Stage : Type where
  | overrideProtocol
  | extractor
  | sanitizer
  deriving DecidableEq, Repr

/-- What a run did to its page context: how many times `page.close()` ran,
and which pipeline stages executed. -/
structure Trace : Type where
  closes : Nat
  stages : List Stage
  deriving DecidableEq, Repr

/-- The serialized content: the empty string of the early-exit branches,
or the sanitized document `page.content()` renders. -/
inductive PageContent : Type where
  | emptyStr
  | rendered (d : Doc)

/-- `SerializedResponse` from `renderer.ts`. -/
structure SerializedResponse : Type where
  status : Int
  customHeaders : List (String × String)
  content : PageContent

/-- `PreviewResponse` from `renderer.ts`. -/
structure PreviewResponse : Type where
  status : Int
  title : Option String
  description : Option String
  domain : String
  img : Option String

/-- What `serialize` resolves with. -/
inductive RenderResult : Type where
  | serialized (r : SerializedResponse)
  | previewed (p : PreviewResponse)

/-- `Renderer.serialize`: open a page (the trace counts its closes),
navigate with the first-response fallback listener, return 400 on no
response, 403 on a `metadata-flavor: Google` response, then run the
status/header override protocol and either the preview extractors or the
sanitizer.  An extractor that throws rejects `serialize` itself — nothing
closes the page on that path (`closes = 0`). -/
def serialize (nav : NavResult) (d : PageDom) (requestUrl : String) (preview : Bool) :
    Except EvalError RenderResult × Trace :=
  match serializeResponse nav with
  | none => (.ok (.serialized ⟨400, [], .emptyStr⟩), ⟨1, []⟩)
  | some r =>
    if assocGet r.headers "metadata-flavor" = some "Google" then
      (.ok (.serialized ⟨403, [], .emptyStr⟩), ⟨1, []⟩)
    else
      let statusCode := resolveStatus r.status d.statusMeta
      let customHeaders := parseHeaderMeta d.headerMeta
      if preview then
        match getTitle d with
        | .error e => (.error e, ⟨0, [.overrideProtocol, .extractor]⟩)
        | .ok title =>
          let description := getDescription d
          match getDomainName d requestUrl with
          | .error e => (.error e, ⟨0, [.overrideProtocol, .extractor]⟩)
          | .ok domain =>
            match getImg d requestUrl with
            | .error e => (.error e, ⟨0, [.overrideProtocol, .extractor]⟩)
            | .ok img =>
              (.ok (.previewed ⟨statusCode, title, description, domain, img⟩),
               ⟨1, [.overrideProtocol, .extractor]⟩)
      else
        (.ok (.serialized ⟨statusCode, customHeaders,
          .rendered (sanitizeDoc (originOf requestUrl) d.doc)⟩),
         ⟨1, [.overrideProtocol, .sanitizer]⟩)

/-- The typed failure of `screenshot`. -/
inductive ScreenshotFailure : Type where
  | Forbidden
  | NoResponse
  deriving DecidableEq, Repr

/-- A successful capture: the options handed to `page.screenshot` (the
image bytes themselves are outside the model). -/
structure ScreenshotOk : Type where
  options : List (String × String)
  deriving DecidableEq, Repr

/-- `Object.assign({}, options, {type: 'jpeg', encoding: 'binary'})`. -/
def forceJpegBinary (options : List (String × String)) : List (String × String) :=
  assocSet (assocSet options "type" "jpeg") "encoding" "binary"

/-- `Renderer.screenshot`: no response listener, so a failed navigation is
a `NoResponse` failure; a `metadata-flavor: Google` response is a
`Forbidden` failure; both close the page first.  On success the capture
options are forced to jpeg/binary. -/
def screenshot (nav : NavResult) (options : List (String × String)) :
    Except ScreenshotFailure ScreenshotOk × Trace :=
  match screenshotResponse nav with
  | none => (.error .NoResponse, ⟨1, []⟩)
  | some r =>
    if assocGet r.headers "metadata-flavor" = some "Google" then
      (.error .Forbidden, ⟨1, []⟩)
    else
      (.ok ⟨forceJpegBinary options⟩, ⟨1, []⟩)

/-- The status the caller observes from a `serialize` run, when it did not
throw. -/
def deliveredStatus (run : Except EvalError RenderResult × Trace) : Option Int :=
  match run.1 with
  | .ok (.serialized r) => some r.status
  | .ok (.previewed p) => some p.status
  | .error _ => none

/-! ## Lemmas about the sanitizer -/

/-- A `base` element never matches the strip selector. -/
theorem isStripped_base (a : List (String × String)) : isStripped "base" a = false := by
  simp [isStripped]

/-- Stripping never lengthens a node list. -/
theorem stripNodes_length_le (l : List Node) : (stripNodes l).length ≤ l.length := by
  induction l using stripNodes.induct with
  | case1 => simp [stripNodes]
  | case2 s rest ih => simp [stripNodes]; omega
  | case3 t a c rest hstrip ih => simp [stripNodes, hstrip]; omega
  | case4 t a c rest hstrip ihc ihrest => simp [stripNodes, hstrip]; omega

/-- Stripping is idempotent on node lists. -/
theorem stripNodes_idem (l : List Node) : stripNodes (stripNodes l) = stripNodes l := by
  induction l using stripNodes.induct with
  | case1 => simp [stripNodes]
  | case2 s rest ih => simp [stripNodes, ih]
  | case3 t a c rest hstrip ih => simp [stripNodes, hstrip, ih]
  | case4 t a c rest hstrip ihc ihrest => simp [stripNodes, hstrip, ihc, ihrest]

/-- Inverting strip-fixedness at a text head. -/
theorem stripNodes_fixed_text {s : String} {rest : List Node}
    (h : stripNodes (.text s :: rest) = .text s :: rest) : stripNodes rest = rest := by
  rw [stripNodes] at h
  exact (List.cons.injEq ..).mp h |>.2

/-- Inverting strip-fixedness at an element head: the element is not
stripped and the children and tail are strip-fixed as well. -/
theorem stripNodes_fixed_elem {t : String} {a : List (String × String)}
    {c rest : List Node}
    (h : stripNodes (.elem t a c :: rest) = .elem t a c :: rest) :
    isStripped t a = false ∧ stripNodes c = c ∧ stripNodes rest = rest := by
  rw [stripNodes] at h
  by_cases hs : isStripped t a = true
  · rw [if_pos hs] at h
    have hlen := stripNodes_length_le rest
    have : (stripNodes rest).length = (Node.elem t a c :: rest).length := by rw [h]
    simp at this
    omega
  · rw [if_neg hs] at h
    have h2 := (List.cons.injEq ..).mp h
    have h3 := (Node.elem.injEq ..).mp h2.1
    exact ⟨by simpa using hs, h3.2.2, h2.2⟩

/-- `hasBaseL` decides whether `firstBaseAttrsL` finds anything. -/
theorem hasBaseL_eq_isSome (l : List Node) : hasBaseL l = (firstBaseAttrsL l).isSome := by
  induction l using firstBaseAttrsL.induct with
  | case1 => simp [hasBaseL, firstBaseAttrsL]
  | case2 s rest ih => simp [hasBaseL, firstBaseAttrsL, ih]
  | case3 a c rest =>
    simp [hasBaseL, firstBaseAttrsL]
  | case4 t a c rest hbase r hr ihc =>
    simp [hasBaseL, firstBaseAttrsL, hbase, hr, ihc]
  | case5 t a c rest hbase hc ihc ihrest =>
    simp [hasBaseL, firstBaseAttrsL, hbase, hc, ihc, ihrest]

/-- `assocSet` then `assocGet` at the same key yields the new value. -/
theorem assocGet_assocSet (a : List (String × String)) (k v : String) :
    assocGet (assocSet a k v) k = some v := by
  induction a with
  | nil => simp [assocSet, assocGet]
  | cons p rest ih =>
    by_cases hk : p.1 = k
    · simp [assocSet, assocGet, hk]
    · simp [assocSet, assocGet, hk, ih]

/-- Setting a key to the value it already has is the identity. -/
theorem assocSet_self (a : List (String × String)) (k v : String)
    (h : assocGet a k = some v) : assocSet a k v = a := by
  induction a with
  | nil => simp [assocGet] at h
  | cons p rest ih =>
    by_cases hk : p.1 = k
    · rw [assocGet, if_pos hk] at h
      cases h
      simp [assocSet, hk]
      exact Prod.ext hk.symm rfl
    · rw [assocGet, if_neg hk] at h
      simp [assocSet, hk, ih h]

/-- Patching the first base rewrites exactly its `href` attribute. -/
theorem firstBaseAttrsL_patch (v : String) (l : List Node)
    (a : List (String × String)) (h : firstBaseAttrsL l = some a) :
    firstBaseAttrsL (patchFirstBaseL v l) = some (assocSet a "href" v) := by
  induction l using firstBaseAttrsL.induct with
  | case1 => simp [firstBaseAttrsL] at h
  | case2 s rest ih =>
    rw [firstBaseAttrsL] at h
    rw [patchFirstBaseL, firstBaseAttrsL]
    exact ih h
  | case3 a' c rest =>
    simp [firstBaseAttrsL] at h
    subst h
    simp [patchFirstBaseL, firstBaseAttrsL]
  | case4 t a' c rest hbase r hr ihc =>
    simp [firstBaseAttrsL, hbase, hr] at h
    subst h
    have hhas : hasBaseL c = true := by rw [hasBaseL_eq_isSome, hr]; rfl
    simp [patchFirstBaseL, firstBaseAttrsL, hbase, hhas, ihc hr]
  | case5 t a' c rest hbase hc ihc ihrest =>
    simp [firstBaseAttrsL, hbase, hc] at h
    have hhas : hasBaseL c = false := by rw [hasBaseL_eq_isSome, hc]; rfl
    simp [patchFirstBaseL, firstBaseAttrsL, hbase, hhas, hc, ihrest h]

/-- Patching the first base with the value its `href` already carries is
the identity. -/
theorem patchFirstBaseL_self (v : String) (l : List Node)
    (a : List (String × String)) (h : firstBaseAttrsL l = some a)
    (hv : assocSet a "href" v = a) : patchFirstBaseL v l = l := by
  induction l using firstBaseAttrsL.induct with
  | case1 => simp [firstBaseAttrsL] at h
  | case2 s rest ih =>
    rw [firstBaseAttrsL] at h
    rw [patchFirstBaseL, ih h]
  | case3 a' c rest =>
    simp [firstBaseAttrsL] at h
    subst h
    simp [patchFirstBaseL, hv]
  | case4 t a' c rest hbase r hr ihc =>
    simp [firstBaseAttrsL, hbase, hr] at h
    subst h
    have hhas : hasBaseL c = true := by rw [hasBaseL_eq_isSome, hr]; rfl
    simp [patchFirstBaseL, hbase, hhas, ihc hr]
  | case5 t a' c rest hbase hc ihc ihrest =>
    simp [firstBaseAttrsL, hbase, hc] at h
    have hhas : hasBaseL c = false := by rw [hasBaseL_eq_isSome, hc]; rfl
    simp [patchFirstBaseL, hbase, hhas, ihrest h]

/-- Patching preserves strip-fixedness (the patched element is a `base`,
which the strip selector never matches). -/
theorem stripNodes_patch (v : String) (l : List Node)
    (h : stripNodes l = l) :
    stripNodes (patchFirstBaseL v l) = patchFirstBaseL v l := by
  induction l using firstBaseAttrsL.induct with
  | case1 => simp [patchFirstBaseL, stripNodes]
  | case2 s rest ih =>
    have hrest := stripNodes_fixed_text h
    rw [patchFirstBaseL, stripNodes, ih hrest]
  | case3 a c rest =>
    obtain ⟨_, hc, hrest⟩ := stripNodes_fixed_elem h
    simp [patchFirstBaseL, stripNodes, isStripped_base, hc, hrest]
  | case4 t a c rest hbase r hr ihc =>
    obtain ⟨hns, hc, hrest⟩ := stripNodes_fixed_elem h
    have hhas : hasBaseL c = true := by rw [hasBaseL_eq_isSome, hr]; rfl
    simp [patchFirstBaseL, hbase, hhas, stripNodes, hns, ihc hc, hrest]
  | case5 t a c rest hbase hfb ihc ihrest =>
    obtain ⟨hns, hc, hrest⟩ := stripNodes_fixed_elem h
    have hhas : hasBaseL c = false := by rw [hasBaseL_eq_isSome, hfb]; rfl
    simp [patchFirstBaseL, hbase, hhas, stripNodes, hns, hc, ihrest hrest]

/-- Concatenation of strings concatenates their character lists. -/
theorem strData_append (a b : String) : (a ++ b).data = a.data ++ b.data := by
  cases a
  cases b
  rfl

/-- Prepending a nonempty string fixes the first character. -/
theorem startsWithSlash_append (o e : String) (ho : o ≠ "") :
    startsWithSlash (o ++ e) = startsWithSlash o := by
  cases o with
  | mk l =>
    cases l with
    | nil => exact absurd rfl ho
    | cons c cs =>
      simp only [startsWithSlash, strData_append, List.cons_append]

/-- The empty string is a left identity for concatenation. -/
theorem empty_append_str (e : String) : "" ++ e = e := by
  cases e
  rfl

/-- Injecting a base preserves strip-fixedness: the injected or patched
element is a `base`, which the strip selector never matches. -/
theorem stripNodes_inject (o : String) (l : List Node) (h : stripNodes l = l) :
    stripNodes (injectBaseHref o l) = injectBaseHref o l := by
  unfold injectBaseHref
  cases hfb : firstBaseAttrsL l with
  | none => simp [stripNodes, isStripped_base, h]
  | some a =>
    by_cases hs : startsWithSlash ((assocGet a "href").getD "") = true
    · simp [hs, stripNodes_patch _ _ h]
    · simp [hs, h]

/-- Injecting a base is idempotent as long as the origin string does not
itself start with `/`: the href it installs (the origin, or the origin
prefixed to a path-relative href) is never path-relative again. -/
theorem injectBaseHref_idem (o : String) (l : List Node)
    (ho : startsWithSlash o = false) :
    injectBaseHref o (injectBaseHref o l) = injectBaseHref o l := by
  cases hfb : firstBaseAttrsL l with
  | none =>
    have h1 : injectBaseHref o l = .elem "base" [("href", o)] [] :: l := by
      rw [injectBaseHref, hfb]
    rw [h1, injectBaseHref]
    simp [firstBaseAttrsL, assocGet, ho]
  | some a =>
    by_cases hs : startsWithSlash ((assocGet a "href").getD "") = true
    · have he : assocGet a "href" = some ((assocGet a "href").getD "") := by
        cases hag : assocGet a "href" with
        | none => rw [hag] at hs; simp [startsWithSlash] at hs
        | some x => rfl
      have h1 : injectBaseHref o l =
          patchFirstBaseL (o ++ (assocGet a "href").getD "") l := by
        rw [injectBaseHref, hfb]
        simp [hs]
      by_cases hoe : o = ""
      · have hp : patchFirstBaseL (o ++ (assocGet a "href").getD "") l = l := by
          rw [hoe, empty_append_str]
          exact patchFirstBaseL_self _ l a hfb (assocSet_self a "href" _ he)
        rw [h1, hp, h1, hp]
      · have h2 : firstBaseAttrsL (patchFirstBaseL (o ++ (assocGet a "href").getD "") l) =
            some (assocSet a "href" (o ++ (assocGet a "href").getD "")) :=
          firstBaseAttrsL_patch _ l a hfb
        rw [h1, injectBaseHref, h2]
        simp [assocGet_assocSet, startsWithSlash_append _ _ hoe, ho]
    · have h1 : injectBaseHref o l = l := by
        rw [injectBaseHref, hfb]
        simp [hs]
      rw [h1, h1]

/-! ## Lemmas about first-occurrence replacement -/

/-- A prefix test does not look past the pattern's length. -/
theorem isPrefixOf_append_of_le (pat l tail : List Char) (h : pat.length ≤ l.length) :
    List.isPrefixOf pat (l ++ tail) = List.isPrefixOf pat l := by
  induction pat generalizing l with
  | nil => simp [List.isPrefixOf]
  | cons p ps ih =>
    cases l with
    | nil => simp at h
    | cons a as =>
      simp only [List.cons_append, List.isPrefixOf, List.append_eq]
      rw [ih as (by simpa using h)]

/-- `replace('www.', '')` removes exactly the first occurrence of `www.`:
on an input decomposed as `pre ++ "www." ++ post` where `pre` contains no
occurrence, the result is `pre ++ post`.  (The pattern's final `.` rules
out an occurrence straddling the decomposition boundary.) -/
theorem replaceOnceL_www (pre post : List Char)
    (h : containsSubL pre "www.".data = false) :
    replaceOnceL (pre ++ "www.".data ++ post) "www.".data [] = pre ++ post := by
  induction pre with
  | nil =>
    have hw : "www.".data = ['w', 'w', 'w', '.'] := rfl
    simp only [List.nil_append, hw, List.cons_append]
    rw [replaceOnceL]
    simp [List.isPrefixOf]
  | cons c cs ih =>
    rw [containsSubL, Bool.or_eq_false_iff] at h
    obtain ⟨h1, h2⟩ := h
    have hnp : List.isPrefixOf "www.".data (c :: (cs ++ "www.".data ++ post)) = false := by
      match cs with
      | [] => simp [List.isPrefixOf]
      | [a] => simp [List.isPrefixOf]
      | [a, b] => simp [List.isPrefixOf]
      | a :: b :: e :: ds =>
        have hre : c :: ((a :: b :: e :: ds) ++ "www.".data ++ post) =
            (c :: a :: b :: e :: ds) ++ ("www.".data ++ post) := by
          simp
        rw [hre, isPrefixOf_append_of_le _ _ _ (by simp)]
        exact h1
    simp only [List.cons_append]
    rw [replaceOnceL, if_neg (by rw [hnp]; simp), ih h2]

/-- Splitting at the first colon of `pre ++ ':' :: post` recovers the two
halves when `pre` is colon-free. -/
theorem firstColonSplit_append (pre post : List Char) (h : ':' ∉ pre) :
    firstColonSplit (pre ++ ':' :: post) = some (pre, post) := by
  induction pre with
  | nil => simp [firstColonSplit]
  | cons c cs ih =>
    have hc : ¬c = ':' := fun hcc => h (hcc ▸ List.mem_cons_self c cs)
    have hcs : ':' ∉ cs := fun hm => h (List.mem_cons_of_mem c hm)
    simp only [List.cons_append]
    rw [firstColonSplit, if_neg hc, ih hcs]
    rfl

/-- A colon-free list has no first-colon split. -/
theorem firstColonSplit_none (l : List Char) (h : ':' ∉ l) :
    firstColonSplit l = none := by
  induction l with
  | nil => rfl
  | cons c cs ih =>
    have hc : ¬c = ':' := fun hcc => h (hcc ▸ List.mem_cons_self c cs)
    have hcs : ':' ∉ cs := fun hm => h (List.mem_cons_of_mem c hm)
    rw [firstColonSplit, if_neg hc, ih hcs]
    rfl

/-! ## The claims -/

/-- C1: the page context is closed exactly once on the explicit branches
(success in both modes, no-response, navigation failure, forbidden
metadata-flavor, screenshot failures) — but an error raised mid-pipeline
(here: the title extractor throwing on a page with no title sources and no
h1) escapes `serialize` with the page never closed, so the claimed
"closed exactly once on every control-flow branch" fails on the
error-mid-pipeline branch. -/
theorem serialize_close_counts :
    (serialize (.completed (some ⟨200, []⟩)) {} "https://example.com/" true).2.closes = 0
    ∧ (serialize (.completed (some ⟨200, []⟩)) {} "https://example.com/" true).1 =
        .error .typeError
    ∧ (serialize (.completed (some ⟨200, []⟩)) { h1Inner := some "t" }
        "https://example.com/" true).2.closes = 1
    ∧ (serialize (.completed (some ⟨200, []⟩)) {} "https://example.com/" false).2.closes = 1
    ∧ (serialize (.completed none) {} "https://example.com/" false).2.closes = 1
    ∧ (serialize (.failed none) {} "https://example.com/" true).2.closes = 1
    ∧ (serialize (.completed (some ⟨200, [("metadata-flavor", "Google")]⟩)) {}
        "https://example.com/" true).2.closes = 1
    ∧ (screenshot (.completed none) []).2.closes = 1
    ∧ (screenshot (.completed (some ⟨200, [("metadata-flavor", "Google")]⟩)) []).2.closes = 1
    ∧ (screenshot (.completed (some ⟨200, []⟩)) []).2.closes = 1 :=
  ⟨rfl, rfl, rfl, rfl, rfl, rfl, rfl, rfl, rfl, rfl⟩

/-- C3 (counterexample): a network-layer 304 is *not* always observed as
200 — normalization to 200 runs before the override protocol, so a
`render:status_code` meta tag of `404` turns a 304 response into a
delivered 404. -/
theorem status_304_override_counterexample :
    deliveredStatus (serialize (.completed (some ⟨304, []⟩))
      { statusMeta := some (some "404") } "https://example.com/" false) = some 404
    ∧ (404 : Int) ≠ 200 :=
  ⟨rfl, by decide⟩

/-- C3 (amended): a network-layer 304 is treated exactly as a 200 would
be: it is normalized to 200 before the override protocol runs, so the
caller observes 200 unless a status-override meta tag then replaces it. -/
theorem serialize_304_as_200 (hs : List (String × String)) (d : PageDom)
    (uri : String) (preview : Bool) :
    serialize (.completed (some ⟨304, hs⟩)) d uri preview =
      serialize (.completed (some ⟨200, hs⟩)) d uri preview := rfl

/-- C4: a response carrying `metadata-flavor: Google` makes `serialize`
return status 403 with no custom headers and empty content after exactly
one close, with no stage (override protocol, extractor, sanitizer) having
run; `screenshot` fails with `Forbidden` after exactly one close. -/
theorem forbidden_guard (nav : NavResult) (d : PageDom) (uri : String)
    (preview : Bool) (r : Resp) (options : List (String × String))
    (h1 : serializeResponse nav = some r)
    (h2 : assocGet r.headers "metadata-flavor" = some "Google") :
    serialize nav d uri preview = (.ok (.serialized ⟨403, [], .emptyStr⟩), ⟨1, []⟩)
    ∧ screenshot (.completed (some r)) options = (.error .Forbidden, ⟨1, []⟩) := by
  constructor
  · unfold serialize
    rw [h1]
    simp [h2]
  · unfold screenshot screenshotResponse
    simp [h2]

/-- C4 (witness): the guard theorem applied to a concrete Google
metadata-flavored response. -/
theorem forbidden_guard_witness :
    serialize (.completed (some ⟨200, [("metadata-flavor", "Google")]⟩)) {}
      "https://example.com/" true = (.ok (.serialized ⟨403, [], .emptyStr⟩), ⟨1, []⟩)
    ∧ screenshot (.completed (some ⟨200, [("metadata-flavor", "Google")]⟩)) [] =
      (.error .Forbidden, ⟨1, []⟩) :=
  forbidden_guard (.completed (some ⟨200, [("metadata-flavor", "Google")]⟩)) {}
    "https://example.com/" true ⟨200, [("metadata-flavor", "Google")]⟩ [] rfl rfl

/-- C5: meta lookups that find nothing do fall through to null — but the
`<h1>` lookup does not: on a page with no Open-Graph title, no
Twitter-card title, an empty document title and no `<h1>` element, the
source dereferences `querySelector('h1').innerHTML` on null and the
evaluation throws instead of returning null (the claimed total waterfall
only reaches its final null through an `<h1>` that is present but
empty). -/
theorem getTitle_missing_h1_throws :
    getTitle {} = .error .typeError
    ∧ getTitle { h1Inner := some "" } = .ok none
    ∧ getTitle { h1Inner := some "hi" } = .ok (some "hi")
    ∧ getTitle { docTitle := "T" } = .ok (some "T")
    ∧ getDescription {} = none
    ∧ getDomainName {} "https://example.com/" = .ok "example.com" :=
  ⟨rfl, rfl, rfl, rfl, rfl, rfl⟩

/-- C7: the image filter excludes a 40×40 image (dimension ≤ 50) and a
200×60 image (ratio greater than 3:1) and keeps a 200×80 image, and the
first survivor's origin-rewritten src is returned — but when the page has
`<img>` elements and *none* survives the filter, the source reads
`imgs[0].src` of an empty array and the evaluation throws instead of
returning null (null is returned only when the page has no `<img>` at
all). -/
theorem getImg_filter_and_empty_crash :
    imgKeep ⟨40, 40, "i.png"⟩ = false
    ∧ imgKeep ⟨200, 60, "i.png"⟩ = false
    ∧ imgKeep ⟨200, 80, "i.png"⟩ = true
    ∧ getImg { imgs := [⟨40, 40, "i.png"⟩] } "https://example.com/p" = .error .typeError
    ∧ getImg { imgs := [⟨200, 60, "a.png"⟩, ⟨200, 80, "b.png"⟩] } "https://example.com/p" =
        .ok (some "https://example.com/b.png")
    ∧ getImg { imgs := [] } "https://example.com/p" = .ok none :=
  ⟨rfl, rfl, rfl, rfl, rfl, rfl⟩

/-- C10: the first-response fallback exists only in `serialize`: a failed
navigation with a captured first response behaves exactly like a
completed navigation with that response, while `screenshot` — which
registers no response listener — fails with `NoResponse` on every failed
navigation even when a response had been captured on the wire. -/
theorem partial_response_listener_asymmetry :
    (∀ (r : Resp) (d : PageDom) (uri : String) (preview : Bool),
      serialize (.failed (some r)) d uri preview =
        serialize (.completed (some r)) d uri preview)
    ∧ (∀ (r : Resp) (options : List (String × String)),
      screenshot (.failed (some r)) options = (.error .NoResponse, ⟨1, []⟩)) :=
  ⟨fun _ _ _ _ => rfl, fun _ _ => rfl⟩

/-- C2 (counterexample): a status meta tag whose content parses to the
valid integer 0 does *not* replace a baseline 200 — `parseInt` yields 0,
which is falsy, so the `statusCode === 200 && newStatusCode` guard
rejects it and the delivered status stays 200 instead of 0. -/
theorem status_override_zero_counterexample :
    deliveredStatus (serialize (.completed (some ⟨200, []⟩))
      { statusMeta := some (some "0") } "https://example.com/" false) = some 200
    ∧ parseIntJS "0" = some 0
    ∧ (200 : Int) ≠ 0 :=
  ⟨rfl, rfl, by decide⟩

/-- C2 (amended): the delivered status is the resolved status, and the
meta tag replaces the normalized baseline exactly when that baseline is
200 and the tag's content parses to a valid *nonzero* integer; any other
baseline is delivered unchanged, and content parsing to NaN or 0 leaves a
200 baseline in place. -/
theorem serialize_status_override_amended (nav : NavResult) (d : PageDom)
    (uri : String) (r : Resp)
    (h1 : serializeResponse nav = some r)
    (h2 : ¬ assocGet r.headers "metadata-flavor" = some "Google") :
    deliveredStatus (serialize nav d uri false) = some (resolveStatus r.status d.statusMeta)
    ∧ ((if r.status = 304 then 200 else r.status) ≠ 200 →
        resolveStatus r.status d.statusMeta = if r.status = 304 then 200 else r.status)
    ∧ (∀ n : Int, (if r.status = 304 then 200 else r.status) = 200 →
        newStatusCodeOf d.statusMeta = some n → n ≠ 0 →
        resolveStatus r.status d.statusMeta = n)
    ∧ ((if r.status = 304 then 200 else r.status) = 200 →
        (newStatusCodeOf d.statusMeta = none ∨ newStatusCodeOf d.statusMeta = some 0) →
        resolveStatus r.status d.statusMeta = 200) := by
  refine ⟨?_, ?_, ?_, ?_⟩
  · unfold serialize
    rw [h1]
    simp [h2, deliveredStatus]
  · intro hs
    unfold resolveStatus
    cases hm : newStatusCodeOf d.statusMeta <;> simp [hs]
  · intro n hs hm hn
    unfold resolveStatus
    rw [hm]
    simp [hs, hn]
  · intro hs hm
    unfold resolveStatus
    rcases hm with hm | hm <;> rw [hm] <;> simp [hs]

/-- C2 (amended, witness): baseline 500 with override content `201` stays
500; baseline 200 with content `404` becomes 404. -/
theorem serialize_status_override_amended_witness :
    deliveredStatus (serialize (.completed (some ⟨500, []⟩))
      { statusMeta := some (some "201") } "https://example.com/" false) = some 500
    ∧ deliveredStatus (serialize (.completed (some ⟨200, []⟩))
      { statusMeta := some (some "404") } "https://example.com/" false) = some 404 := by
  constructor
  · have h := serialize_status_override_amended (.completed (some ⟨500, []⟩))
      { statusMeta := some (some "201") } "https://example.com/" ⟨500, []⟩ rfl (by decide)
    rw [h.1, h.2.1 (by decide)]
    decide
  · have h := serialize_status_override_amended (.completed (some ⟨200, []⟩))
      { statusMeta := some (some "404") } "https://example.com/" ⟨200, []⟩ rfl (by decide)
    rw [h.1, h.2.2.1 404 (by decide) rfl (by decide)]

/-- C6 (counterexample): domain extraction does *not* strip only a
leading `www.` — `String.prototype.replace` with a string pattern removes
the first occurrence anywhere, so the hostname `foo.www.example.com`
(whose `www.` is non-leading and should be preserved per the claim)
becomes `foo.example.com`. -/
theorem getDomainName_nonleading_www_counterexample :
    getDomainName {} "https://foo.www.example.com/page" = .ok "foo.example.com"
    ∧ "foo.example.com" ≠ "foo.www.example.com" :=
  ⟨rfl, by decide⟩

/-- C6 (amended): domain extraction chooses the canonical link href, else
the Open-Graph url meta, else the originally requested URL, extracts that
URL's hostname (throwing on a URL with no scheme separator), and removes
the *first occurrence* of the literal substring `www.` anywhere in the
hostname — a leading `www.` prefix in particular. -/
theorem getDomainName_waterfall_amended :
    (∀ (d : PageDom) (uri : String),
      getDomainName d uri =
        match urlHostname ((domainSourceUrl d).getD uri) with
        | some h => .ok (jsReplaceOnce h "www." "")
        | none => .error .typeError)
    ∧ (∀ pre post : List Char, containsSubL pre "www.".data = false →
        jsReplaceOnce ⟨pre ++ "www.".data ++ post⟩ "www." "" = ⟨pre ++ post⟩)
    ∧ getDomainName {} "https://www.example.com/page" = .ok "example.com" := by
  refine ⟨?_, ?_, rfl⟩
  · intro d uri
    unfold getDomainName
    cases hd : domainSourceUrl d <;> simp [hd]
  · intro pre post h
    unfold jsReplaceOnce
    exact congrArg String.mk (replaceOnceL_www pre post h)

/-- C6 (amended, witness): the first-occurrence characterization at the
hostname `foo.www.example.com`. -/
theorem getDomainName_waterfall_amended_witness :
    jsReplaceOnce ⟨"foo.".data ++ "www.".data ++ "example.com".data⟩ "www." "" =
      ⟨"foo.".data ++ "example.com".data⟩ :=
  getDomainName_waterfall_amended.2.1 "foo.".data "example.com".data (by decide)

/-- C8: the header meta tag contributes at most one header; its content is
split at the first colon only, with both halves trimmed (so
`Location: /new-path` yields `Location` / `/new-path`); absent tags,
absent content and colon-free content yield an empty header map. -/
theorem header_meta_protocol :
    (∀ hm, (parseHeaderMeta hm).length ≤ 1)
    ∧ (∀ pre post : List Char, ':' ∉ pre →
        parseHeaderMeta (some (some ⟨pre ++ ':' :: post⟩)) =
          [(jsTrim ⟨pre⟩, jsTrim ⟨post⟩)])
    ∧ parseHeaderMeta (some (some "Location: /new-path")) = [("Location", "/new-path")]
    ∧ (∀ s : String, ':' ∉ s.data → parseHeaderMeta (some (some s)) = [])
    ∧ parseHeaderMeta none = []
    ∧ parseHeaderMeta (some none) = [] := by
  refine ⟨?_, ?_, rfl, ?_, rfl, rfl⟩
  · intro hm
    rcases hm with _ | (_ | s)
    · simp [parseHeaderMeta]
    · simp [parseHeaderMeta]
    · simp only [parseHeaderMeta]
      split
      · simp
      · split <;> simp
  · intro pre post h
    have hne : (⟨pre ++ ':' :: post⟩ : String) ≠ "" := by
      intro hcon
      have hd := congrArg String.data hcon
      simp at hd
    simp only [parseHeaderMeta]
    rw [if_neg hne, firstColonSplit_append pre post h]
  · intro s h
    simp only [parseHeaderMeta]
    rw [firstColonSplit_none s.data h]
    split <;> rfl

/-- C8 (witness): the split theorem applied at `Location: /new-path`. -/
theorem header_meta_protocol_witness :
    parseHeaderMeta (some (some ⟨"Location".data ++ ':' :: " /new-path".data⟩)) =
      [(jsTrim "Location", jsTrim " /new-path")] :=
  header_meta_protocol.2.1 "Location".data " /new-path".data (by decide)

/-- C9: the content sanitizer is idempotent — as long as the injected
origin is not itself path-relative (it is `protocol + '//' + host` in
`serialize`), re-running the strip step and the base-href step on an
already-sanitized document changes nothing: no strippable element
remains, and the resolved base href no longer starts with `/`. -/
theorem sanitizer_idempotent (o : String) (d : Doc)
    (ho : startsWithSlash o = false) :
    sanitizeDoc o (sanitizeDoc o d) = sanitizeDoc o d := by
  have hs : stripNodes (stripNodes d.head) = stripNodes d.head := stripNodes_idem d.head
  have h1 : stripNodes (injectBaseHref o (stripNodes d.head)) =
      injectBaseHref o (stripNodes d.head) := stripNodes_inject o _ hs
  unfold sanitizeDoc stripPage
  simp only []
  rw [h1, injectBaseHref_idem o _ ho, stripNodes_idem]

/-- C9 (witness): idempotence at a concrete document holding a bare
script, a relative base and an import link, with origin
`https://example.com`. -/
theorem sanitizer_idempotent_witness :
    sanitizeDoc "https://example.com" (sanitizeDoc "https://example.com"
      ⟨[Node.elem "script" [] [], Node.elem "base" [("href", "/app/")] []],
       [Node.elem "link" [("rel", "import")] [], Node.text "hello"]⟩) =
    sanitizeDoc "https://example.com"
      ⟨[Node.elem "script" [] [], Node.elem "base" [("href", "/app/")] []],
       [Node.elem "link" [("rel", "import")] [], Node.text "hello"]⟩ :=
  sanitizer_idempotent "https://example.com" _ (by decide)

end Rendertron
